import Mathlib

-- Verification development for the sandbox orchestration service
-- (src/sandbox/sandbox.py).  Python strings are modelled as `List Char`
-- (sequences of code points) where string surgery matters, and as `String`
-- where the value is only carried around.  Effectful calls to the external
-- sandbox platform are modelled by oracle parameters describing the
-- outcome of each remote command, and the control flow of each operation
-- is translated step by step from the source.

set_option autoImplicit false

/-- Outcome of the request-gateway auth helper `verify_auth` (sandbox.py
lines 43-62): either the request is allowed to proceed, or a FastAPI
`HTTPException` with the given status code and detail string is raised. -/
inductive AuthResult
  | allow
  | reject (status : Nat) (detail : String)
deriving DecidableEq, Repr

/-- Model of `verify_auth(request)` (sandbox.py lines 43-62).  The
`Authorization` header is `none` when absent; the configured secret
`MODAL_API_SECRET` is `none` when unset.  Python truthiness makes an empty
string behave like an absent value, which the model reproduces.  The
constant-time `hmac.compare_digest` is modelled by its functional result,
plain equality of the two strings. -/
def verify_auth (authHeader : Option (List Char)) (expectedSecret : Option (List Char)) :
    AuthResult :=
  match expectedSecret with
  | none => .allow
  | some s =>
    if s = [] then .allow
    else
      match authHeader with
      | none => .reject 401 "Missing Authorization header"
      | some h =>
        if h = [] then .reject 401 "Missing Authorization header"
        else if ¬ ("Bearer ".data.isPrefixOf h = true) then
          .reject 401 "Invalid Authorization header format"
        else if h.drop 7 = s then .allow
        else .reject 403 "Invalid API secret"

/-- Result of one lifecycle operation: either a normal return carrying the
sandbox id and tunnel URL, or a raised `Exception` with the given message. -/
inductive CreateOutcome
  | ok (sandboxId : String) (tunnelUrl : String)
  | exn (msg : String)
deriving DecidableEq, Repr

/-- Oracle for the external effects of `create_sandbox`: the id Modal
assigns to the new sandbox, the exit code and captured stderr of the
`git clone` command, the (already decoded and stripped) status code
returned by the i-th health check, and the tunnel URL for port 4096. -/
structure CreateEnv where
  sandboxId : String
  cloneRc : Int
  cloneStderr : String
  healthCode : Nat → String
  tunnelUrl : String

/-- Observable trace of one `create_sandbox` run: the returned value or
raised exception, whether `sb.terminate()` was called, and how many health
checks were issued. -/
structure CreateRun where
  outcome : CreateOutcome
  terminated : Bool
  healthAttempts : Nat
deriving DecidableEq, Repr

/-- The bounded health-poll loop shared by `create_sandbox` (lines 171-193)
and `resume_sandbox` (lines 264-280): starting at attempt index `i` with
`fuel` attempts left, issue a health check; on the exact string "200" stop,
otherwise sleep and retry.  Returns the index of the first successful
attempt (or `none` when the budget is exhausted) together with the number
of checks actually issued. -/
def pollFrom (hc : Nat → String) : Nat → Nat → Option Nat × Nat
  | _, 0 => (none, 0)
  | i, fuel + 1 =>
    if hc i = "200" then (some i, 1)
    else
      let r := pollFrom hc (i + 1) fuel
      (r.1, r.2 + 1)

/-- The tail of `create_sandbox` after the clone section (sandbox.py lines
144-203): poll health up to 30 times; on success return the sandbox id and
tunnel URL; on exhaustion dump the log tail, terminate the sandbox and
raise "OpenCode server failed to start". -/
def createAfterClone (env : CreateEnv) : CreateRun :=
  match pollFrom env.healthCode 0 30 with
  | (some _, n) =>
    { outcome := .ok env.sandboxId env.tunnelUrl, terminated := false, healthAttempts := n }
  | (none, n) =>
    { outcome := .exn "OpenCode server failed to start", terminated := true,
      healthAttempts := n }

/-- Model of `create_sandbox(repo, pat, anthropic_api_key)` (sandbox.py
lines 65-203) restricted to its observables: when a repository is supplied
and the clone exits non-zero, the sandbox is terminated and an `Exception`
carrying the captured stderr is raised before any health check; otherwise
the run proceeds to server launch and health polling. -/
def create_sandbox (repo : Option String) (env : CreateEnv) : CreateRun :=
  match repo with
  | some _ =>
    if env.cloneRc ≠ 0 then
      { outcome := .exn ("Failed to clone repository: " ++ env.cloneStderr),
        terminated := true, healthAttempts := 0 }
    else createAfterClone env
  | none => createAfterClone env

/-- Return value of `pause_sandbox`: the success body carrying the snapshot
id, or the structured error body with its message. -/
inductive PauseResult
  | snapshotId (id : String)
  | error (msg : String)
deriving DecidableEq, Repr

/-- Observable trace of one `pause_sandbox` run: the returned body and
whether `sb.terminate()` was attempted. -/
structure PauseRun where
  result : PauseResult
  terminateAttempted : Bool
deriving DecidableEq, Repr

/-- Model of `pause_sandbox(sandbox_id)` (sandbox.py lines 206-226).
`snapshotOutcome` is the result of `sb.snapshot_filesystem()`: `.ok id` on
success, `.error msg` when it raised with message `msg`.
`terminateRaises` tells whether the best-effort `sb.terminate()` would
raise; a raise there is caught and only logged, so it does not affect the
returned body. -/
def pause_sandbox (snapshotOutcome : Except String String) (terminateRaises : Bool) :
    PauseRun :=
  match snapshotOutcome with
  | .error e => { result := .error ("Snapshot failed: " ++ e), terminateAttempted := false }
  | .ok sid =>
    match terminateRaises with
    | _ => { result := .snapshotId sid, terminateAttempted := true }

/-- The shell-exportable assignment line that `create_sandbox` and
`resume_sandbox` append to the secrets file /root/.opencode-env for the
model API key (sandbox.py lines 156-157 and 250-252). -/
def secretLine (k : String) : String := "export ANTHROPIC_API_KEY=\"" ++ k ++ "\""

/-- Oracle for the external effects of `resume_sandbox`. -/
structure ResumeEnv where
  sandboxId : String
  healthCode : Nat → String
  tunnelUrl : String

/-- Observable trace of one `resume_sandbox` run, including the content of
the secrets file on the new sandbox after the optional append. -/
structure ResumeRun where
  outcome : CreateOutcome
  terminated : Bool
  healthAttempts : Nat
  secretsFile : List String
deriving DecidableEq, Repr

/-- Model of `resume_sandbox(snapshot_id, anthropic_api_key)` (sandbox.py
lines 229-289).  `secretsFile` is the line sequence of
/root/.opencode-env as restored from the snapshot; when an API key is
supplied, one export line is appended (`>>`) before the server is started.
Health polling is the same 30-attempt loop as in `create_sandbox`, but on
exhaustion the raise happens without any `sb.terminate()` call. -/
def resume_sandbox (env : ResumeEnv) (anthropic_api_key : Option String)
    (secretsFile : List String) : ResumeRun :=
  let newFile :=
    match anthropic_api_key with
    | some k => secretsFile ++ [secretLine k]
    | none => secretsFile
  match pollFrom env.healthCode 0 30 with
  | (some _, n) =>
    { outcome := .ok env.sandboxId env.tunnelUrl, terminated := false,
      healthAttempts := n, secretsFile := newFile }
  | (none, n) =>
    { outcome := .exn "OpenCode server failed to start after resume", terminated := false,
      healthAttempts := n, secretsFile := newFile }

/-- HTTP-level response of a FastAPI endpoint: either an `HTTPException`
with a status code and detail, or a normal HTTP 200 response with body. -/
inductive HttpResponse (α : Type)
  | httpError (status : Nat) (detail : String)
  | ok (body : α)
deriving DecidableEq, Repr

/-- Whether a response is an auth rejection (status 401 or 403). -/
def isAuthReject {α : Type} : HttpResponse α → Bool
  | .httpError s _ => s == 401 || s == 403
  | .ok _ => false

/-- JSON body accepted by the `api_create_sandbox` endpoint. -/
structure CreateBody where
  repo : Option String
  pat : Option String
  anthropic_api_key : Option String

/-- Model of the POST endpoint `api_create_sandbox(body)` (sandbox.py lines
407-415).  The handler receives only the JSON body and delegates straight
to `create_sandbox`; it never calls `verify_auth`, so the configured
secret and the Authorization header of the request (passed here as extra
parameters describing the request context) cannot influence the response. -/
def api_create_sandbox (_expectedSecret : Option (List Char))
    (_authHeader : Option (List Char)) (body : CreateBody) (env : CreateEnv) :
    HttpResponse CreateRun :=
  .ok (create_sandbox body.repo env)

/-- Substring test on code-point sequences, i.e. the semantics of
`grep PAT` for a fixed-string pattern on one line. -/
def containsSub (pat : List Char) : List Char → Bool
  | [] => pat.isEmpty
  | a :: as => pat.isPrefixOf (a :: as) || containsSub pat as

/-- Model of `grep -v PAT`: keep the lines that do not contain `PAT`. -/
def grepV (pat : List Char) (lines : List (List Char)) : List (List Char) :=
  lines.filter (fun l => ! containsSub pat l)

/-- Lexicographic comparison of lines, used to model the `sort` stage. -/
def lexLe : List Char → List Char → Bool
  | [], _ => true
  | _ :: _, [] => false
  | a :: as, b :: bs => if a = b then lexLe as bs else decide (a < b)

/-- Insertion step of the sort model. -/
def insertLine (x : List Char) : List (List Char) → List (List Char)
  | [] => [x]
  | y :: ys => if lexLe x y then x :: y :: ys else y :: insertLine x ys

/-- Model of the `sort` stage of the environment probe pipeline (any
stable reordering; only the multiset of lines matters to the claims). -/
def sortLines : List (List Char) → List (List Char)
  | [] => []
  | x :: xs => insertLine x (sortLines xs)

/-- The `name=value` line that the `env` command prints for one variable. -/
def envLine (p : List Char × List Char) : List Char := p.1 ++ '=' :: p.2

/-- Model of the environment probe of `get_logs` (sandbox.py line 393):
`env | grep -v API_KEY | grep -v TOKEN | grep -v SECRET | sort` applied to
an environment given as a list of (name, value) pairs. -/
def get_logs_environment (env : List (List Char × List Char)) : List (List Char) :=
  sortLines (grepV "SECRET".data (grepV "TOKEN".data
    (grepV "API_KEY".data (env.map envLine))))

/-- Split a line at the first occurrence of `c`, when there is one. -/
def splitOnce (c : Char) : List Char → Option (List Char × List Char)
  | [] => none
  | x :: xs =>
    if x = c then some ([], xs)
    else (splitOnce c xs).map (fun p => (x :: p.1, p.2))

/-- Python `line.split("|", 2)`: at most two splits, so at most three
parts, the last one keeping any further separators. -/
def split2 (l : List Char) : List (List Char) :=
  match splitOnce '|' l with
  | none => [l]
  | some (a, r) =>
    match splitOnce '|' r with
    | none => [a, r]
    | some (b, r2) => [a, b, r2]

/-- Python `os.path.basename`: everything after the last slash. -/
def basename (p : List Char) : List Char :=
  (p.reverse.takeWhile (fun c => c ≠ '/')).reverse

/-- Characters stripped by Python `str.strip()`. -/
def isPySpace (c : Char) : Bool :=
  c = ' ' || c = '\n' || c = '\t' || c = '\r' || c = '\x0b' || c = '\x0c'

/-- Model of Python `str.strip()`. -/
def pyStrip (l : List Char) : List Char :=
  ((l.dropWhile isPySpace).reverse.dropWhile isPySpace).reverse

/-- Model of Python `str.split(sep)` for a one-character separator
(returns at least one part; empty input yields one empty part). -/
def splitOnChar (c : Char) : List Char → List (List Char)
  | [] => [[]]
  | x :: xs =>
    if x = c then [] :: splitOnChar c xs
    else
      match splitOnChar c xs with
      | [] => [[x]]
      | r :: rs => (x :: r) :: rs

/-- Value of a non-empty all-digit string, `none` otherwise. -/
def digits? (l : List Char) : Option Nat :=
  match l with
  | [] => none
  | _ =>
    l.foldl
      (fun acc c =>
        match acc with
        | none => none
        | some n => if c.isDigit then some (n * 10 + (c.toNat - '0'.toNat)) else none)
      (some 0)

/-- Model of Python `int(s)` on a string: optional surrounding whitespace,
optional sign, then decimal digits; anything else raises `ValueError`
(modelled as `none`). -/
def pyInt? (s : List Char) : Option Int :=
  match pyStrip s with
  | '-' :: rest => (digits? rest).map (fun n => -(n : Int))
  | '+' :: rest => (digits? rest).map (fun n => (n : Int))
  | t => (digits? t).map (fun n => (n : Int))

/-- One entry of the `list_files` response body. -/
structure FileEntry where
  name : List Char
  path : List Char
  is_directory : Bool
  size : Option Int
deriving DecidableEq, Repr

/-- Parse one line of the listing output (sandbox.py lines 319-331).
`none` means the iteration raised (`int(size)` failed), `some none` means
the line was silently skipped, `some (some e)` yields one entry.  The
empty-name check comes before the size conversion, exactly as in the
source. -/
def parseLine (line : List Char) : Option (Option FileEntry) :=
  if '|' ∈ line then
    match split2 line with
    | [ty, sz, fp] =>
      let name := basename fp
      if name = [] then some none
      else
        if sz ≠ [] ∧ ty ≠ ['d'] then
          match pyInt? sz with
          | none => none
          | some n =>
            some (some { name := name, path := fp, is_directory := ty == ['d'],
                         size := some n })
        else
          some (some { name := name, path := fp, is_directory := ty == ['d'],
                       size := none })
    | _ => some none
  else some none

/-- The loop of `list_files` over the listing lines: collect the parsed
entries, aborting the whole call when a line raises. -/
def parseLines : List (List Char) → Option (List FileEntry)
  | [] => some []
  | l :: ls =>
    match parseLine l with
    | none => none
    | some none => parseLines ls
    | some (some f) => (parseLines ls).map (fun r => f :: r)

/-- Result of `list_files`: the file list, or the structured error body
produced by the enclosing `except` (its message, the stringified
exception, is not modelled). -/
inductive ListFilesResult
  | files (entries : List FileEntry)
  | error
deriving DecidableEq, Repr

/-- Model of `list_files(sandbox_id, path)` (sandbox.py lines 304-335)
from the captured stdout of the listing command
`find PATH -maxdepth 1 -printf PERCENT-y|PERCENT-s|PERCENT-p 2>/dev/null | tail -n +2`
onwards: strip the output, split it into lines and parse each line.  The
`tail -n +2` stage has already dropped the first line (the directory
itself) from the text this function receives, and `-maxdepth 1` makes the
listing non-recursive. -/
def list_files (output : List Char) : ListFilesResult :=
  match parseLines (splitOnChar '\n' (pyStrip output)) with
  | none => .error
  | some fs => .files fs

/-- One step of strict UTF-8 decoding (RFC 3629, the semantics of Python
`bytes.decode("utf-8")`): decode the code point starting at the head of
the byte list together with the remaining bytes, rejecting overlong forms,
surrogates and code points above U+10FFFF. -/
def utf8DecodeStep : List Nat → Option (Nat × List Nat)
  | [] => none
  | b :: bs =>
    if b < 0x80 then some (b, bs)
    else if 0xC2 ≤ b ∧ b ≤ 0xDF then
      match bs with
      | c1 :: bs' =>
        if 0x80 ≤ c1 ∧ c1 ≤ 0xBF then some ((b - 0xC0) * 64 + (c1 - 0x80), bs')
        else none
      | [] => none
    else if 0xE0 ≤ b ∧ b ≤ 0xEF then
      match bs with
      | c1 :: c2 :: bs' =>
        let lo1 := if b = 0xE0 then 0xA0 else 0x80
        let hi1 := if b = 0xED then 0x9F else 0xBF
        if lo1 ≤ c1 ∧ c1 ≤ hi1 ∧ 0x80 ≤ c2 ∧ c2 ≤ 0xBF then
          some ((b - 0xE0) * 4096 + (c1 - 0x80) * 64 + (c2 - 0x80), bs')
        else none
      | _ => none
    else if 0xF0 ≤ b ∧ b ≤ 0xF4 then
      match bs with
      | c1 :: c2 :: c3 :: bs' =>
        let lo1 := if b = 0xF0 then 0x90 else 0x80
        let hi1 := if b = 0xF4 then 0x8F else 0xBF
        if lo1 ≤ c1 ∧ c1 ≤ hi1 ∧ 0x80 ≤ c2 ∧ c2 ≤ 0xBF ∧ 0x80 ≤ c3 ∧ c3 ≤ 0xBF then
          some ((b - 0xF0) * 262144 + (c1 - 0x80) * 4096 + (c2 - 0x80) * 64 + (c3 - 0x80),
                bs')
        else none
      | _ => none
    else none

/-- Fuelled driver of the decoder; each step consumes at least one byte,
so the byte count is enough fuel. -/
def utf8DecodeFuel : Nat → List Nat → Option (List Nat)
  | _, [] => some []
  | 0, _ :: _ => none
  | fuel + 1, l =>
    match utf8DecodeStep l with
    | none => none
    | some (cp, rest) => (utf8DecodeFuel fuel rest).map (fun cps => cp :: cps)

/-- Strict UTF-8 decoding of a byte sequence to code points; `none` models
a raised `UnicodeDecodeError`. -/
def utf8Decode (bytes : List Nat) : Option (List Nat) :=
  utf8DecodeFuel bytes.length bytes

/-- A remote command issued by `read_file` against the sandbox. -/
inductive SbCmd
  | testDashF (path : String)
  | catFile (path : String)
deriving DecidableEq, Repr

/-- Response body of `read_file`: the content on success, the fixed
"File not found" error body, or the error body built from a caught
exception (here, the decode failure) whose stringified message is not
modelled. -/
inductive ReadFileResult
  | content (text : List Nat)
  | errorMsg (msg : String)
  | errorExn
deriving DecidableEq, Repr

/-- Model of `read_file(sandbox_id, path)` (sandbox.py lines 338-358).
`fs` maps each path to the raw bytes of the file behind it, or `none` when
`test -f` exits non-zero.  The returned trace lists the commands issued:
the existence check always, the `cat` only when the check passed.  The
decoded content is the full byte sequence of the file; no size limit is
applied anywhere. -/
def read_file (fs : String → Option (List Nat)) (path : String) :
    ReadFileResult × List SbCmd :=
  match fs path with
  | none => (.errorMsg "File not found", [.testDashF path])
  | some bytes =>
    match utf8Decode bytes with
    | some cps => (.content cps, [.testDashF path, .catFile path])
    | none => (.errorExn, [.testDashF path, .catFile path])

theorem pollFrom_exhaust (hc : Nat → String) :
    ∀ fuel i, (∀ k, k < fuel → hc (i + k) ≠ "200") → pollFrom hc i fuel = (none, fuel) := by
  intro fuel
  induction fuel with
  | zero => intro i _; rfl
  | succ f ih =>
    intro i h
    have h0 : ¬ hc i = "200" := by
      have := h 0 (Nat.succ_pos f)
      simpa using this
    have hrec : pollFrom hc (i + 1) f = (none, f) := by
      apply ih
      intro k hk
      have hx := h (k + 1) (by omega)
      have e : i + (k + 1) = i + 1 + k := by omega
      rw [e] at hx
      exact hx
    simp [pollFrom, h0, hrec]

theorem pollFrom_first (hc : Nat → String) :
    ∀ fuel i j, j < fuel → hc (i + j) = "200" → (∀ k, k < j → hc (i + k) ≠ "200") →
      pollFrom hc i fuel = (some (i + j), j + 1) := by
  intro fuel
  induction fuel with
  | zero => intro i j hj _ _; exact absurd hj (Nat.not_lt_zero j)
  | succ f ih =>
    intro i j hj hok hmin
    cases j with
    | zero =>
      have h0 : hc i = "200" := by simpa using hok
      simp [pollFrom, h0]
    | succ j' =>
      have h0 : ¬ hc i = "200" := by
        have := hmin 0 (Nat.succ_pos j')
        simpa using this
      have hrec : pollFrom hc (i + 1) f = (some (i + 1 + j'), j' + 1) := by
        apply ih
        · omega
        · have e : i + 1 + j' = i + (j' + 1) := by omega
          rw [e]
          exact hok
        · intro k hk
          have hx := hmin (k + 1) (by omega)
          have e : i + (k + 1) = i + 1 + k := by omega
          rw [e] at hx
          exact hx
      have e2 : i + 1 + j' = i + (j' + 1) := by omega
      simp [pollFrom, h0, hrec, e2]

/-- Claim C2: for every create call with a repository reference where the
clone command exits non-zero, the sandbox is terminated, the raised
failure carries the captured clone stderr, and no sandbox id / tunnel URL
pair is returned. -/
theorem create_sandbox_clone_failure (r : String) (env : CreateEnv)
    (h : env.cloneRc ≠ 0) :
    (create_sandbox (some r) env).terminated = true ∧
    (create_sandbox (some r) env).outcome =
      CreateOutcome.exn ("Failed to clone repository: " ++ env.cloneStderr) ∧
    ∀ sid url, (create_sandbox (some r) env).outcome ≠ CreateOutcome.ok sid url := by
  refine ⟨?_, ?_, ?_⟩ <;> simp [create_sandbox, h]

theorem create_sandbox_clone_failure_witness :
    (create_sandbox (some "octo/hello")
        ⟨"sb-1", 128, "fatal: repository not found", fun _ => "200", "https://t"⟩).terminated
      = true :=
  (create_sandbox_clone_failure "octo/hello" _ (by decide)).1

/-- Claim C3: pause returns the structured error body and never attempts
termination when the snapshot raises; when the snapshot succeeds it
returns the snapshot id even if the best-effort termination fails, the
response being independent of the termination outcome. -/
theorem pause_sandbox_spec (snap : Except String String) (terminateRaises : Bool) :
    (∀ e, snap = Except.error e →
       pause_sandbox snap terminateRaises =
         { result := PauseResult.error ("Snapshot failed: " ++ e),
           terminateAttempted := false }) ∧
    (∀ sid, snap = Except.ok sid →
       (pause_sandbox snap terminateRaises).result = PauseResult.snapshotId sid ∧
       (pause_sandbox snap terminateRaises).terminateAttempted = true) ∧
    pause_sandbox snap true = pause_sandbox snap false := by
  refine ⟨?_, ?_, ?_⟩
  · intro e he
    subst he
    rfl
  · intro sid hs
    subst hs
    exact ⟨rfl, rfl⟩
  · cases snap <;> rfl

theorem pause_sandbox_spec_witness :
    pause_sandbox (Except.error "snapshot backend unavailable") true =
      { result := PauseResult.error ("Snapshot failed: " ++ "snapshot backend unavailable"),
        terminateAttempted := false } :=
  (pause_sandbox_spec (Except.error "snapshot backend unavailable") true).1
    "snapshot backend unavailable" rfl

/-- Claim C4: when every readiness check of a resume run returns a
non-200 code until the 30-attempt budget is exhausted, the operation
raises "OpenCode server failed to start after resume" and, unlike the
create path, does not terminate the newly created sandbox. -/
theorem resume_sandbox_not_ready (env : ResumeEnv) (key : Option String)
    (file : List String) (h : ∀ i, i < 30 → env.healthCode i ≠ "200") :
    (resume_sandbox env key file).outcome =
      CreateOutcome.exn "OpenCode server failed to start after resume" ∧
    (resume_sandbox env key file).terminated = false := by
  have hp : pollFrom env.healthCode 0 30 = (none, 30) :=
    pollFrom_exhaust env.healthCode 30 0 (fun k hk => by simpa using h k hk)
  constructor <;> simp [resume_sandbox, hp]

theorem resume_sandbox_not_ready_witness :
    (resume_sandbox ⟨"sb-2", fun _ => "000", "https://t"⟩ none []).terminated = false :=
  (resume_sandbox_not_ready ⟨"sb-2", fun _ => "000", "https://t"⟩ none []
    (fun _ _ => (by decide : "000" ≠ "200"))).2

/-- Claim C5: the health loop issues exactly 30 checks when every check
returns a non-200 code and the whole operation then fails, an outcome
distinct from any run where some attempt returns "200": there the loop
stops at the first such attempt and the operation proceeds, so a single
non-200 check never fails the operation by itself. -/
theorem health_poll_spec (env : CreateEnv) :
    ((∀ i, i < 30 → env.healthCode i ≠ "200") →
       pollFrom env.healthCode 0 30 = (none, 30) ∧
       (create_sandbox none env).outcome =
         CreateOutcome.exn "OpenCode server failed to start" ∧
       (create_sandbox none env).healthAttempts = 30 ∧
       (create_sandbox none env).terminated = true) ∧
    (∀ j, j < 30 → env.healthCode j = "200" →
       ∃ i, i ≤ j ∧ env.healthCode i = "200" ∧
         (∀ k, k < i → env.healthCode k ≠ "200") ∧
         pollFrom env.healthCode 0 30 = (some i, i + 1) ∧
         (create_sandbox none env).outcome =
           CreateOutcome.ok env.sandboxId env.tunnelUrl) := by
  constructor
  · intro h
    have hp : pollFrom env.healthCode 0 30 = (none, 30) :=
      pollFrom_exhaust env.healthCode 30 0 (fun k hk => by simpa using h k hk)
    refine ⟨hp, ?_, ?_, ?_⟩ <;> simp [create_sandbox, createAfterClone, hp]
  · intro j hj hok
    have hex : ∃ i, env.healthCode i = "200" := ⟨j, hok⟩
    have hi0 : env.healthCode (Nat.find hex) = "200" := Nat.find_spec hex
    have hle : Nat.find hex ≤ j := Nat.find_le hok
    have hmin : ∀ k, k < Nat.find hex → env.healthCode k ≠ "200" :=
      fun k hk => Nat.find_min hex hk
    have hp : pollFrom env.healthCode 0 30 = (some (Nat.find hex), Nat.find hex + 1) := by
      have := pollFrom_first env.healthCode 30 0 (Nat.find hex) (by omega)
        (by simpa using hi0) (fun k hk => by simpa using hmin k hk)
      simpa using this
    exact ⟨Nat.find hex, hle, hi0, hmin, hp,
      by simp [create_sandbox, createAfterClone, hp]⟩

theorem health_poll_spec_witness :
    pollFrom (fun _ => "503") 0 30 = (none, 30) :=
  ((health_poll_spec ⟨"sb-3", 0, "", fun _ => "503", "https://t"⟩).1
    (fun _ _ => (by decide : "503" ≠ "200"))).1

/-- Claim C9: the resume-time write of the model API key to the secrets
file is additive; resuming twice along one snapshot lineage with two keys
leaves both export lines present, the earlier one unreplaced, and no
other line of the file is changed. -/
theorem resume_secrets_additive (env1 env2 : ResumeEnv) (file : List String)
    (k1 k2 : String) :
    (resume_sandbox env2 (some k2)
        ((resume_sandbox env1 (some k1) file).secretsFile)).secretsFile =
      file ++ [secretLine k1, secretLine k2] ∧
    secretLine k1 ∈ (resume_sandbox env2 (some k2)
        ((resume_sandbox env1 (some k1) file).secretsFile)).secretsFile ∧
    secretLine k2 ∈ (resume_sandbox env2 (some k2)
        ((resume_sandbox env1 (some k1) file).secretsFile)).secretsFile := by
  have hs : ∀ (env : ResumeEnv) (k : String) (f : List String),
      (resume_sandbox env (some k) f).secretsFile = f ++ [secretLine k] := by
    intro env k f
    unfold resume_sandbox
    rcases hp : pollFrom env.healthCode 0 30 with ⟨fst, snd⟩
    cases fst <;> simp [hp]
  refine ⟨?_, ?_, ?_⟩
  · rw [hs, hs, List.append_assoc]
    rfl
  · rw [hs, hs]
    simp
  · rw [hs, hs]
    simp

theorem isPrefixOf_append_of_isPrefixOf {p l : List Char} (r : List Char)
    (h : p.isPrefixOf l = true) : p.isPrefixOf (l ++ r) = true := by
  induction p generalizing l with
  | nil => simp
  | cons a as ih =>
    cases l with
    | nil => simp [List.isPrefixOf] at h
    | cons b bs =>
      simp only [List.cons_append, List.isPrefixOf, Bool.and_eq_true] at h ⊢
      exact ⟨h.1, ih h.2⟩

theorem isPrefixOf_self (p : List Char) : p.isPrefixOf p = true := by
  induction p with
  | nil => rfl
  | cons a as ih => simp [List.isPrefixOf, ih]

theorem isPrefixOf_append_self (p t : List Char) : p.isPrefixOf (p ++ t) = true :=
  isPrefixOf_append_of_isPrefixOf t (isPrefixOf_self p)

theorem bearer_append_ne_nil (t : List Char) : "Bearer ".data ++ t ≠ [] := by
  intro h
  have hlen := congrArg List.length h
  rw [List.length_append] at hlen
  have h7 : "Bearer ".data.length = 7 := rfl
  rw [h7] at hlen
  simp at hlen

theorem bearer_append_drop (t : List Char) : ("Bearer ".data ++ t).drop 7 = t := by
  have h7 : 7 = "Bearer ".data.length := rfl
  rw [h7, List.drop_left]

/-- Claim C1 (amended): the helper `verify_auth` implements the documented
policy — with no secret configured (unset or empty) every request is
allowed; with a secret configured, a missing or empty Authorization header
is rejected 401, a header not starting with "Bearer " is rejected 401, a
presented token different from the secret is rejected 403, and a matching
token is allowed — but no POST endpoint handler invokes `verify_auth` (the
handlers receive only the JSON body), so at the HTTP surface every request
is accepted regardless of the configured secret and of the header. -/
theorem verify_auth_policy (s t : List Char) (hs : s ≠ []) (hst : t ≠ s) :
    (∀ h, verify_auth h none = AuthResult.allow) ∧
    verify_auth none (some s) = AuthResult.reject 401 "Missing Authorization header" ∧
    verify_auth (some []) (some s) =
      AuthResult.reject 401 "Missing Authorization header" ∧
    (∀ h, h ≠ [] → "Bearer ".data.isPrefixOf h = false →
      verify_auth (some h) (some s) =
        AuthResult.reject 401 "Invalid Authorization header format") ∧
    verify_auth (some ("Bearer ".data ++ t)) (some s) =
      AuthResult.reject 403 "Invalid API secret" ∧
    verify_auth (some ("Bearer ".data ++ s)) (some s) = AuthResult.allow ∧
    (∀ secret header body env,
      api_create_sandbox secret header body env =
        HttpResponse.ok (create_sandbox body.repo env)) := by
  refine ⟨fun h => rfl, ?_, ?_, ?_, ?_, ?_, fun _ _ _ _ => rfl⟩
  · simp [verify_auth, hs]
  · simp [verify_auth, hs]
  · intro h hne hpre
    simp [verify_auth, hs, hne, hpre]
  · simp [verify_auth, hs, bearer_append_ne_nil t, isPrefixOf_append_self,
      bearer_append_drop, hst]
  · simp [verify_auth, hs, bearer_append_ne_nil s, isPrefixOf_append_self,
      bearer_append_drop]

theorem verify_auth_policy_witness :
    verify_auth none (some "s3cr3t".data) =
      AuthResult.reject 401 "Missing Authorization header" :=
  (verify_auth_policy "s3cr3t".data "wrong".data (by decide) (by decide)).2.1

/-- Concrete run context for the auth counterexample. -/
def authCxEnv : CreateEnv :=
  ⟨"sb-cx", 0, "", fun _ => "200", "https://tunnel.example"⟩

/-- Claim C1 (counterexample): with the secret "s3cr3t" configured and no
Authorization header on the request, the POST endpoint
`api_create_sandbox` does not reject with 401 as the claim requires: the
handler never consults the auth context and serves the request normally. -/
theorem api_create_ignores_auth_cx :
    api_create_sandbox (some "s3cr3t".data) none ⟨none, none, none⟩ authCxEnv =
      HttpResponse.ok (create_sandbox none authCxEnv) ∧
    isAuthReject
      (api_create_sandbox (some "s3cr3t".data) none ⟨none, none, none⟩ authCxEnv) =
      false :=
  ⟨rfl, rfl⟩

theorem containsSub_nil_pat (r : List Char) : containsSub [] r = true := by
  induction r with
  | nil => rfl
  | cons b bs ih => simp [containsSub]

theorem containsSub_append (pat l r : List Char) (h : containsSub pat l = true) :
    containsSub pat (l ++ r) = true := by
  induction l with
  | nil =>
    have hp : pat = [] := by
      cases pat with
      | nil => rfl
      | cons a as => simp [containsSub, List.isEmpty] at h
    subst hp
    exact containsSub_nil_pat r
  | cons a as ih =>
    simp only [containsSub, Bool.or_eq_true] at h
    simp only [List.cons_append, containsSub, Bool.or_eq_true]
    rcases h with hp | hc
    · exact Or.inl (by
        have := isPrefixOf_append_of_isPrefixOf r hp
        simpa using this)
    · exact Or.inr (ih hc)

theorem mem_insertLine (x y : List Char) (l : List (List Char)) :
    y ∈ insertLine x l ↔ y = x ∨ y ∈ l := by
  induction l with
  | nil => simp [insertLine]
  | cons z zs ih =>
    simp only [insertLine]
    split
    · simp [List.mem_cons]
    · simp only [List.mem_cons, ih]
      tauto

theorem mem_sortLines (y : List Char) (l : List (List Char)) :
    y ∈ sortLines l ↔ y ∈ l := by
  induction l with
  | nil => simp [sortLines]
  | cons x xs ih => simp [sortLines, mem_insertLine, ih]

/-- Claim C6: the environment probe of `get_logs` never includes the line
of a variable whose name contains API_KEY, TOKEN or SECRET, whatever the
environment content. -/
theorem get_logs_environment_scrubbed (env : List (List Char × List Char))
    (n v : List Char)
    (h : containsSub "API_KEY".data n = true ∨ containsSub "TOKEN".data n = true ∨
         containsSub "SECRET".data n = true) :
    envLine (n, v) ∉ get_logs_environment env := by
  intro hmem
  rw [get_logs_environment, mem_sortLines] at hmem
  simp only [grepV, List.mem_filter, Bool.not_eq_true', Bool.not_eq_true] at hmem
  obtain ⟨⟨⟨_, hA⟩, hT⟩, hS⟩ := hmem
  have hline : envLine (n, v) = n ++ '=' :: v := rfl
  rcases h with h1 | h1 | h1
  · have := containsSub_append "API_KEY".data n ('=' :: v) h1
    rw [← hline] at this
    rw [this] at hA
    exact Bool.noConfusion hA
  · have := containsSub_append "TOKEN".data n ('=' :: v) h1
    rw [← hline] at this
    rw [this] at hT
    exact Bool.noConfusion hT
  · have := containsSub_append "SECRET".data n ('=' :: v) h1
    rw [← hline] at this
    rw [this] at hS
    exact Bool.noConfusion hS

theorem get_logs_environment_scrubbed_witness :
    envLine ("ANTHROPIC_API_KEY".data, "sk-123".data) ∉
      get_logs_environment
        [("ANTHROPIC_API_KEY".data, "sk-123".data), ("HOME".data, "/root".data)] :=
  get_logs_environment_scrubbed _ _ _ (Or.inl (by decide))

theorem splitOnce_eq_none (c : Char) (l : List Char) (h : c ∉ l) :
    splitOnce c l = none := by
  induction l with
  | nil => rfl
  | cons x xs ih =>
    have hx : ¬ x = c := fun e => h (e ▸ List.mem_cons_self x xs)
    simp [splitOnce, hx, ih (fun hm => h (List.mem_cons_of_mem x hm))]

theorem split2_three_mem (line ty sz fp : List Char)
    (h : split2 line = [ty, sz, fp]) : '|' ∈ line := by
  by_contra hmem
  have h1 : split2 line = [line] := by
    simp [split2, splitOnce_eq_none '|' line hmem]
  rw [h1] at h
  simp at h

/-- Claim C7 (amended): the listing parser of `list_files` yields, for the
example directory holding the 10-byte file a.txt and the subdirectory sub,
exactly the two documented entries with name, full path, directory flag
and size (null for the directory); lines without a separator, lines with
fewer than three fields, and lines whose path has an empty basename are
silently skipped; but a line whose size field is not a valid integer for a
non-directory entry is not skipped: it makes the whole call return the
structured error body. -/
theorem list_files_spec :
    list_files "f|10|/workspace/a.txt\nd|4096|/workspace/sub".data =
      ListFilesResult.files
        [{ name := "a.txt".data, path := "/workspace/a.txt".data,
           is_directory := false, size := some 10 },
         { name := "sub".data, path := "/workspace/sub".data,
           is_directory := true, size := none }] ∧
    (∀ line lines, '|' ∉ line → parseLines (line :: lines) = parseLines lines) ∧
    (∀ line lines a b, split2 line = [a, b] →
      parseLines (line :: lines) = parseLines lines) ∧
    (∀ line lines ty sz fp, split2 line = [ty, sz, fp] → basename fp = [] →
      parseLines (line :: lines) = parseLines lines) ∧
    (∀ line lines ty sz fp, split2 line = [ty, sz, fp] → basename fp ≠ [] →
      sz ≠ [] → ty ≠ ['d'] → pyInt? sz = none → parseLines (line :: lines) = none) ∧
    (∀ line lines ty sz fp n, split2 line = [ty, sz, fp] → basename fp ≠ [] →
      sz ≠ [] → ty ≠ ['d'] → pyInt? sz = some n →
      parseLines (line :: lines) =
        (parseLines lines).map (fun rest =>
          { name := basename fp, path := fp, is_directory := false,
            size := some n } :: rest)) ∧
    (∀ line lines sz fp, split2 line = [['d'], sz, fp] → basename fp ≠ [] →
      parseLines (line :: lines) =
        (parseLines lines).map (fun rest =>
          { name := basename fp, path := fp, is_directory := true,
            size := none } :: rest)) := by
  refine ⟨rfl, ?_, ?_, ?_, ?_, ?_, ?_⟩
  · intro line lines hmem
    simp [parseLines, parseLine, hmem]
  · intro line lines a b hsplit
    by_cases hmem : '|' ∈ line
    · simp [parseLines, parseLine, hmem, hsplit]
    · simp [parseLines, parseLine, hmem]
  · intro line lines ty sz fp hsplit hbase
    have hmem := split2_three_mem line ty sz fp hsplit
    simp [parseLines, parseLine, hmem, hsplit, hbase]
  · intro line lines ty sz fp hsplit hbase hsz hty hint
    have hmem := split2_three_mem line ty sz fp hsplit
    simp [parseLines, parseLine, hmem, hsplit, hbase, hsz, hty, hint]
  · intro line lines ty sz fp n hsplit hbase hsz hty hint
    have hmem := split2_three_mem line ty sz fp hsplit
    have hb : (ty == ['d']) = false := beq_eq_false_iff_ne.mpr hty
    simp [parseLines, parseLine, hmem, hsplit, hbase, hsz, hty, hint, hb]
  · intro line lines sz fp hsplit hbase
    have hmem := split2_three_mem line ['d'] sz fp hsplit
    simp [parseLines, parseLine, hmem, hsplit, hbase]

theorem list_files_spec_witness :
    parseLines ["no separator here".data] = parseLines [] :=
  list_files_spec.2.1 "no separator here".data [] (by decide)

/-- Claim C7 (counterexample): a listing whose first line carries the
non-numeric size field "zz" for a regular-file entry is not silently
skipped; the whole call returns the structured error body instead of the
entry list for the remaining well-formed line. -/
theorem list_files_malformed_cx :
    list_files "f|zz|/workspace/a.txt\nf|10|/workspace/b.txt".data =
      ListFilesResult.error ∧
    ListFilesResult.error ≠ ListFilesResult.files
      [{ name := "b.txt".data, path := "/workspace/b.txt".data,
         is_directory := false, size := some 10 }] :=
  ⟨rfl, nofun⟩

/-- Claim C8: when the existence check fails, `read_file` returns exactly
the "File not found" error body and issues no read command against the
sandbox; when the check succeeds on a text file, it returns the full
decoded content, whatever its length (no size limit). -/
theorem read_file_spec (fs : String → Option (List Nat)) (path : String) :
    (fs path = none →
       read_file fs path =
         (ReadFileResult.errorMsg "File not found", [SbCmd.testDashF path]) ∧
       ∀ p, SbCmd.catFile p ∉ (read_file fs path).2) ∧
    (∀ bytes cps, fs path = some bytes → utf8Decode bytes = some cps →
       (read_file fs path).1 = ReadFileResult.content cps) := by
  constructor
  · intro h
    constructor
    · simp [read_file, h]
    · intro p hp
      simp [read_file, h] at hp
  · intro bytes cps hb hd
    simp [read_file, hb, hd]

theorem read_file_spec_witness :
    read_file (fun _ => none) "/workspace/missing.txt" =
      (ReadFileResult.errorMsg "File not found",
       [SbCmd.testDashF "/workspace/missing.txt"]) :=
  ((read_file_spec (fun _ => none) "/workspace/missing.txt").1 rfl).1

/-- Claim C10: when the file exists but its bytes are not valid UTF-8, the
decode failure is caught and `read_file` returns a structured error body,
never content and never an unhandled fault. -/
theorem read_file_decode_error (fs : String → Option (List Nat)) (path : String)
    (bytes : List Nat) (h1 : fs path = some bytes) (h2 : utf8Decode bytes = none) :
    (read_file fs path).1 = ReadFileResult.errorExn ∧
    ∀ cps, (read_file fs path).1 ≠ ReadFileResult.content cps := by
  constructor
  · simp [read_file, h1, h2]
  · intro cps
    simp [read_file, h1, h2]

theorem read_file_decode_error_witness :
    (read_file (fun _ => some [255]) "/tmp/blob.bin").1 = ReadFileResult.errorExn :=
  (read_file_decode_error (fun _ => some [255]) "/tmp/blob.bin" [255] rfl (by decide)).1
